import Mathlib

/-!
Verification development for the NIMBUS repository: the weather-app client
(`src/weather_app/static/*.js`) and the URNS reminder engine it talks to.
Client-side functions are embedded directly from the JavaScript source;
the engine (Trigger Evaluator / Reminder Registry), whose code is not part
of the repository snapshot, is modelled from the specification.
-/

/- ## Favorites helper (src/weather_app/static/favorites_helper.js) -/

/-- A stored favorite, as built at every `addFav` call site:
`{ name, lat, lon }`.  Coordinates are modelled as integers with decidable
equality, matching JavaScript `===` on non-NaN numbers. -/
structure FavItem where
  name : String
  lat : Int
  lon : Int
deriving DecidableEq, Repr

/-- The duplicate test of `addFav`:
`f.name === item.name && f.lat === item.lat && f.lon === item.lon`. -/
def sameFav (item f : FavItem) : Bool :=
  f.name == item.name && f.lat == item.lat && f.lon == item.lon

/-- `addFav` from favorites_helper.js: reads the stored list, appends the
item and returns `true` if no stored entry has the same name/lat/lon,
otherwise leaves the list unchanged and returns `false`.  The localStorage
round-trip (`getFavs`/`saveFavs`) is modelled as the list state itself. -/
def addFav (store : List FavItem) (item : FavItem) : List FavItem × Bool :=
  if store.any (sameFav item) then (store, false)
  else (store ++ [item], true)

/- ## Location autocomplete (src/weather_app/static/location_autocomplete.js) -/

/-- A suggestion entry as handled by `mergeSuggestions`; only the
deduplication key `location_id` and a display field are relevant. -/
structure Sug where
  location_id : String
  display_name : String
deriving DecidableEq, Repr

/-- One step of the first loop of `mergeSuggestions`: add a personalized
item unless its `location_id` was already seen.  The JS `Set` of seen ids
is modelled as a list of strings. -/
def dedupStep (acc : List String × List Sug) (item : Sug) : List String × List Sug :=
  if acc.1.contains item.location_id then acc
  else (item.location_id :: acc.1, acc.2 ++ [item])

/-- The second loop of `mergeSuggestions`: fill from geocoding results,
stopping (`break`) once `merged.length >= limit`, skipping already-seen
ids. -/
def addGeo : List String → List Sug → Nat → List Sug → List Sug
  | _, merged, _, [] => merged
  | seen, merged, limit, g :: gs =>
    if limit ≤ merged.length then merged
    else if seen.contains g.location_id then addGeo seen merged limit gs
    else addGeo (g.location_id :: seen) (merged ++ [g]) limit gs

/-- `LocationAutocomplete.mergeSuggestions`: personalized entries first,
then geocoding entries up to `limit`, deduplicated by `location_id`,
finally truncated with `slice(0, limit)`. -/
def mergeSuggestions (personalized geocoding : List Sug) (limit : Nat) : List Sug :=
  let acc := personalized.foldl dedupStep ([], [])
  (addGeo acc.1 acc.2 limit geocoding).take limit

/- ## HTTP requests built by the client (script.js / settings.js) -/

/-- An outgoing HTTP request as assembled by a `fetch` call. -/
structure HttpRequest where
  method : String
  url : String
  headers : List (String × String)
  body : Option String
deriving DecidableEq, Repr

/-- `APP_KEY` constant from settings.js. -/
def APP_KEY : String := "dev-key"

/-- `URNS_BASE` constant from settings.js. -/
def URNS_BASE : String := "http://127.0.0.1:8081"

/-- The create-reminder request of the home page Schedule button
(script.js): a POST `fetch` to `http://127.0.0.1:8081/reminders` with the
Content-Type and X-App-Key headers. -/
def scheduleRequest (body : String) : HttpRequest :=
  { method := "POST"
    url := "http://127.0.0.1:8081/reminders"
    headers := [("Content-Type", "application/json"), ("X-App-Key", "dev-key")]
    body := some body }

/-- The bulk-delete request of the home page Cancel-All button
(script.js): a DELETE `fetch` to `http://127.0.0.1:8081/reminders` with the
X-App-Key header. -/
def cancelAllRequest : HttpRequest :=
  { method := "DELETE"
    url := "http://127.0.0.1:8081/reminders"
    headers := [("X-App-Key", "dev-key")]
    body := none }

/-- `urnsGET` from settings.js: GET with the `X-App-Key` header.  The query
string built from `params` is appended to the path. -/
def urnsGET (path : String) (query : String) : HttpRequest :=
  { method := "GET"
    url := URNS_BASE ++ path ++ query
    headers := [("X-App-Key", APP_KEY)]
    body := none }

/-- `urnsPOST` from settings.js: POST with Content-Type and `X-App-Key`. -/
def urnsPOST (path : String) (body : String) : HttpRequest :=
  { method := "POST"
    url := URNS_BASE ++ path
    headers := [("Content-Type", "application/json"), ("X-App-Key", APP_KEY)]
    body := some body }

/-- `urnsDELETE` from settings.js: DELETE with the `X-App-Key` header. -/
def urnsDELETE (path : String) : HttpRequest :=
  { method := "DELETE"
    url := URNS_BASE ++ path
    headers := [("X-App-Key", APP_KEY)]
    body := none }

/-- Whether a request carries the static shared-secret header. -/
def hasAppKey (r : HttpRequest) : Bool :=
  r.headers.contains ("X-App-Key", "dev-key")

/- ## Reminder-creation bodies built by the client -/

/-- The JSON body a create-reminder call sends to URNS.  `when`/`cron` are
`Option` because assigning JavaScript `undefined` to an object field makes
`JSON.stringify` drop it. -/
structure ReminderBody where
  app_id : String
  type : String
  when : Option String
  cron : Option String
  webhook : String
  title : String
  msg : String
deriving DecidableEq, Repr

/-- Character-level string split, as JavaScript `String.split(sep)`
performs on its code units; the JS `limit` argument truncates the
resulting array, modelled by taking a prefix of the result. -/
def splitOnChar (sep : Char) : List Char → List (List Char)
  | [] => [[]]
  | c :: cs =>
    match splitOnChar sep cs with
    | [] => [[]]
    | p :: ps => if c = sep then [] :: p :: ps else (c :: p) :: ps

/-- The parts array `schedVal.split(sep, 2)` of the Schedule button
handler: the full split truncated to its first two elements. -/
def splitTwo (sep : Char) (s : String) : List String :=
  ((splitOnChar sep s.data).map (fun l => String.mk l)).take 2

/-- The Schedule button handler of script.js: splits the select value with
`schedVal.split` on a colon (limit 2) into `[kind, val]` (`val` is
`undefined` when no colon is present), then builds the body for kind
`cron` or `time`, and for any other kind sends nothing and shows the
Unknown-schedule-type error (modelled as `none`). -/
def buildScheduleBody (schedVal title msg : String) : Option ReminderBody :=
  let parts := splitTwo ':' schedVal
  let kind := parts.headD ""
  let val : Option String := parts[1]?
  if kind == "cron" then
    some { app_id := "weather-app", type := "cron", when := none, cron := val
           webhook := "http://127.0.0.1:8080/hooks/reminder", title := title, msg := msg }
  else if kind == "time" then
    some { app_id := "weather-app", type := "time", when := val, cron := none
           webhook := "http://127.0.0.1:8080/hooks/reminder", title := title, msg := msg }
  else
    none

/-- The one-time reminder body built by the `btnOneTime` handler of
settings.js: app_id, type time, `when` set to the ISO string, notify and
payload fields. -/
def oneTimeBody (iso message : String) : ReminderBody :=
  { app_id := "weather-app", type := "time", when := some iso, cron := none
    webhook := "http://127.0.0.1:8080/hooks/reminder"
    title := "One-time Reminder", msg := message }

/-- The every-minute test body built by the `btnTestEveryMinute` handler of
settings.js: app_id, type cron, the every-minute cron expression, notify
and payload fields. -/
def testEveryMinuteBody : ReminderBody :=
  { app_id := "weather-app", type := "cron", when := none, cron := some "*/1 * * * *"
    webhook := "http://127.0.0.1:8080/hooks/reminder"
    title := "Test Reminder", msg := "This fires every minute for testing." }

/-- A body populates exactly one of `when`/`cron` and the populated field
matches the declared `type`. -/
def exactlyOneSchedule (b : ReminderBody) : Prop :=
  (b.type = "cron" ∧ b.cron.isSome ∧ b.when = none) ∨
  (b.type = "time" ∧ b.when.isSome ∧ b.cron = none)

/- ## Clear-all handlers and their confirmation gate -/

/-- Observable effects of a click handler run. -/
inductive Effect where
  | request (r : HttpRequest)
  | banner (text : String)
  | toast (text : String)
  | clearErr
  | showErr (text : String)
  | reloadList
deriving DecidableEq, Repr

/-- The home page `btnCancelAll` click handler (script.js): clears the
inline error, awaits `openConfirmModal()`; when it resolves `false` the
handler returns; otherwise it sends `DELETE /reminders` and on success sets
the banner, on failure shows an error. -/
def homeCancelAll (confirmed deleteOk : Bool) : List Effect :=
  [Effect.clearErr] ++
  (if confirmed then
    if deleteOk then
      [Effect.request cancelAllRequest, Effect.banner "All notifications were cleared."]
    else
      [Effect.request cancelAllRequest, Effect.showErr "URNS delete-all failed"]
  else [])

/-- The settings page `btnClearAll` click handler (settings.js): asks
`confirm(...)`; when `false` it returns; otherwise it calls `urnsDELETE`
on the reminders path, then a toast and a list reload (or a toast on
failure). -/
def settingsClearAll (confirmed deleteOk : Bool) : List Effect :=
  if confirmed then
    if deleteOk then
      [Effect.request (urnsDELETE "/reminders"), Effect.toast "All reminders cleared.",
       Effect.reloadList]
    else
      [Effect.request (urnsDELETE "/reminders"), Effect.toast "Clear failed."]
  else []

/-- An effect is an outgoing HTTP request. -/
def isRequest : Effect → Bool
  | Effect.request _ => true
  | _ => false

/-- An effect changes the banner or the displayed reminder state. -/
def changesState : Effect → Bool
  | Effect.request _ => true
  | Effect.banner _ => true
  | Effect.toast _ => true
  | Effect.reloadList => true
  | _ => false

/- ## The URNS Engine: Trigger Evaluator
The engine source code is not part of the repository snapshot (only its
contract documents and its weather-app callers are), so the definitions
below are modelled from the specification. -/

/-- Modelled from the spec: one parsed field of a 5-field cron expression;
the spec supports `*`, single values, comma lists, and `*/N` steps
(a single value is a one-element list). -/
inductive CronField where
  | star
  | vals (vs : List Nat)
  | step (n : Nat)
deriving DecidableEq, Repr

/-- Modelled from the spec: a parsed 5-field cron expression
(minute 0-59, hour 0-23, day-of-month 1-31, month 1-12,
day-of-week 0-6 with 0 = Sunday). -/
structure Cron where
  minute : CronField
  hour : CronField
  dom : CronField
  month : CronField
  dow : CronField
deriving DecidableEq, Repr

instance : Inhabited Cron :=
  ⟨⟨CronField.star, CronField.star, CronField.star, CronField.star, CronField.star⟩⟩

/-- Whether a cron field value matches; `base` is the lower bound of the
range of the field, so `*/N` matches every Nth value starting at the base. -/
def matchField (base : Nat) : CronField → Nat → Bool
  | CronField.star, _ => true
  | CronField.vals vs, x => vs.contains x
  | CronField.step n, x => n != 0 && (x - base) % n == 0

/-- A field is restricted when it is not `*`. -/
def restricted : CronField → Bool
  | CronField.star => false
  | _ => true

/-- Gregorian leap-year test. -/
def isLeap (y : Nat) : Bool :=
  (y % 4 == 0 && y % 100 != 0) || y % 400 == 0

def daysInYear (y : Nat) : Nat := if isLeap y then 366 else 365

def daysInMonth (y m : Nat) : Nat :=
  if m == 2 then (if isLeap y then 29 else 28)
  else if m == 4 || m == 6 || m == 9 || m == 11 then 30
  else 31

/-- Strip whole years off a day count, starting from 1970; the fuel (first
argument) only needs to exceed the number of years stripped. -/
def yearGo : Nat → Nat → Nat → Nat × Nat
  | 0, y, d => (y, d)
  | fuel + 1, y, d =>
    if d < daysInYear y then (y, d) else yearGo fuel (y + 1) (d - daysInYear y)

/-- Convert a day-of-year (0-based) into (month, day-of-month). -/
def monthGo : Nat → Nat → Nat → Nat → Nat × Nat
  | 0, _, m, d => (m, d + 1)
  | fuel + 1, y, m, d =>
    if d < daysInMonth y m then (m, d + 1) else monthGo fuel y (m + 1) (d - daysInMonth y m)

/-- Civil date (year, month, day) of a day count since 1970-01-01. -/
def civilFromDays (days : Nat) : Nat × Nat × Nat :=
  let yd := yearGo days 1970 days
  let md := monthGo 12 yd.1 1 yd.2
  (yd.1, md.1, md.2)

/-- Modelled from the spec: whether an instant (a minute count since
1970-01-01T00:00) satisfies all five cron fields; day-of-month and
day-of-week are OR-combined when both are restricted, matching standard
cron semantics. -/
def cronMatches (e : Cron) (t : Nat) : Bool :=
  let minute := t % 60
  let hour := t / 60 % 24
  let days := t / 1440
  let ymd := civilFromDays days
  let dw := (days + 4) % 7
  matchField 0 e.minute minute &&
  matchField 0 e.hour hour &&
  matchField 1 e.month ymd.2.1 &&
  (if restricted e.dom && restricted e.dow then
    matchField 1 e.dom ymd.2.2 || matchField 0 e.dow dw
  else
    matchField 1 e.dom ymd.2.2 && matchField 0 e.dow dw)

/-- Linear search for the first matching instant strictly after `t`,
bounded by `fuel`. -/
def searchFire (e : Cron) : Nat → Nat → Option Nat
  | 0, _ => none
  | fuel + 1, t => if cronMatches e (t + 1) then some (t + 1) else searchFire e fuel (t + 1)

/-- Search horizon for cron evaluation: a little over four years of minutes,
enough to reach any satisfiable field combination (leap days included);
expressions with no occurrence in the horizon yield `none`
(`InvalidSchedule`, e.g. Feb 30). -/
def searchHorizon : Nat := 2207520

/-- Reminder kind. -/
inductive Kind where
  | time
  | cron
deriving DecidableEq, Repr

/-- Modelled from the spec: the Trigger Evaluator function
`next_fire(kind, when, cron_expr, after) -> Option<instant>`.  For `time`
it returns `when` when `when > after` and the reminder has not yet fired;
for `cron` it returns the earliest matching instant strictly after
`after` within the search horizon. -/
def next_fire (kind : Kind) (w : Nat) (e : Cron) (fired : Bool) (after : Nat) : Option Nat :=
  match kind with
  | Kind.time => if fired then none else if after < w then some w else none
  | Kind.cron => searchFire e searchHorizon after

/- ## The URNS Engine: Reminder Registry (modelled from the spec) -/

/-- Reminder lifecycle status; `inflight` is the internal sub-state set by
`take_due` (surfaced to callers as `scheduled`). -/
inductive Status where
  | scheduled
  | inflight
  | delivered
  | cancelled
  | failed
deriving DecidableEq, Repr

/-- Modelled from the spec: a full reminder record held by the Registry. -/
structure Reminder where
  id : Nat
  app_id : String
  kind : Kind
  whenAt : Nat
  cron_expr : Cron
  webhook_url : String
  payload : String
  idempotency_key : String
  status : Status
  attempts : Nat
  last_error : String
  next_run_time : Option Nat
  created_at : Nat
deriving DecidableEq, Repr

/-- Modelled from the spec: a creation request (`ReminderIn`). -/
structure SpecIn where
  app_id : String
  kind : Kind
  whenAt : Option Nat
  cron_expr : Option Cron
  webhook_url : String
  payload : String
  idempotency_key : String
deriving DecidableEq, Repr

/-- Synchronous creation failures. -/
inductive CreateError where
  | validationError
  | invalidSchedule
deriving DecidableEq, Repr

/-- Modelled from the spec: the Registry backing state — the id counter
and the record map, kept in insertion order. -/
structure Registry where
  nextId : Nat
  records : List Reminder
deriving DecidableEq, Repr

/-- The empty registry at process start. -/
def Registry.empty : Registry := ⟨0, []⟩

/-- Character-level list-prefix test (the scheme check below needs a
computable comparison on string data). -/
def charsLeadWith : List Char → List Char → Bool
  | [], _ => true
  | _ :: _, [] => false
  | c :: cs, d :: ds => c == d && charsLeadWith cs ds

/-- Well-formed webhook URL check, modelled from the validation of a well-formed
URL required by the spec: the URL must carry an http or https scheme. -/
def isWellFormedUrl (s : String) : Bool :=
  charsLeadWith "http://".data s.data || charsLeadWith "https://".data s.data

/-- The required schedule field for the declared kind is present. -/
def hasScheduleField (s : SpecIn) : Bool :=
  match s.kind with
  | Kind.time => s.whenAt.isSome
  | Kind.cron => s.cron_expr.isSome

/-- The idempotency lookup: the first non-cancelled record of the same
`app_id` holding the same key. -/
def findActive (st : Registry) (a k : String) : Option Reminder :=
  st.records.find? (fun r => r.app_id == a && r.idempotency_key == k && r.status != Status.cancelled)

/-- Modelled from the spec: `create(spec) -> id`.  Rejects with
`ValidationError` when the schedule field for the kind is missing or the
webhook URL is malformed; a non-empty `idempotency_key` colliding with an
existing non-cancelled reminder of the same `app_id` returns the existing
id and leaves the registry unchanged; otherwise the initial
`next_run_time` comes from the Trigger Evaluator, failing with
`InvalidSchedule` when none exists. -/
def Registry.create (now : Nat) (st : Registry) (s : SpecIn) :
    Except CreateError (Nat × Registry) :=
  if !hasScheduleField s then Except.error CreateError.validationError
  else if !isWellFormedUrl s.webhook_url then Except.error CreateError.validationError
  else
    match (if s.idempotency_key != "" then findActive st s.app_id s.idempotency_key else none) with
    | some r => Except.ok (r.id, st)
    | none =>
      match next_fire s.kind (s.whenAt.getD 0) (s.cron_expr.getD default) false now with
      | none => Except.error CreateError.invalidSchedule
      | some nr =>
        let r : Reminder :=
          { id := st.nextId, app_id := s.app_id, kind := s.kind
            whenAt := s.whenAt.getD 0, cron_expr := s.cron_expr.getD default
            webhook_url := s.webhook_url, payload := s.payload
            idempotency_key := s.idempotency_key, status := Status.scheduled
            attempts := 0, last_error := "", next_run_time := some nr, created_at := now }
        Except.ok (st.nextId, { nextId := st.nextId + 1, records := st.records ++ [r] })

/-- `get(id)`: the record, or `none` (`NotFound`). -/
def Registry.get (st : Registry) (id : Nat) : Option Reminder :=
  st.records.find? (fun r => r.id == id)

/-- `list(app_id?)`: all records, optionally filtered, in stable insertion
order. -/
def Registry.list (appId : Option String) (st : Registry) : List Reminder :=
  match appId with
  | none => st.records
  | some a => st.records.filter (fun r => r.app_id == a)

/-- `cancel(id)`: sets `status = cancelled` and clears `next_run_time`;
idempotent, a no-op on ids not present. -/
def Registry.cancel (st : Registry) (id : Nat) : Registry :=
  { st with
    records := st.records.map (fun r =>
      if r.id == id then { r with status := Status.cancelled, next_run_time := none } else r) }

/-- `clear_all() -> count`: removes every record regardless of state and
returns how many were removed. -/
def Registry.clear_all (st : Registry) : Nat × Registry :=
  (st.records.length, { st with records := [] })

/-- Delivery outcome reported by the Dispatcher for a finished cycle. -/
inductive Outcome where
  | success
  | failure (err : String) (attempts : Nat)
deriving DecidableEq, Repr

/-- The per-record state transition of `report_result` (spec §4.3), applied
only to non-cancelled records that are still present. -/
def applyOutcome (now : Nat) (o : Outcome) (r : Reminder) : Reminder :=
  match o with
  | Outcome.success =>
    match r.kind with
    | Kind.time => { r with status := Status.delivered, next_run_time := none }
    | Kind.cron =>
      { r with status := Status.scheduled,
               next_run_time := next_fire Kind.cron r.whenAt r.cron_expr false now }
  | Outcome.failure err n =>
    match r.kind with
    | Kind.time =>
      { r with status := Status.failed, next_run_time := none,
               last_error := err, attempts := n }
    | Kind.cron =>
      { r with status := Status.scheduled, last_error := err, attempts := n,
               next_run_time := next_fire Kind.cron r.whenAt r.cron_expr false now }

/-- Modelled from the spec: `report_result(id, outcome)` — a no-op when the
record is already cancelled or removed; otherwise transitions per the state
machine and recomputes `next_run_time` for cron reminders. -/
def Registry.report_result (now : Nat) (st : Registry) (id : Nat) (o : Outcome) : Registry :=
  match st.get id with
  | none => st
  | some r =>
    if r.status == Status.cancelled then st
    else
      { st with
        records := st.records.map (fun x => if x.id == id then applyOutcome now o x else x) }

/-- The externally visible status of a stored reminder. -/
def statusOf (st : Registry) (id : Nat) : Option Status :=
  (st.get id).map (fun r => r.status)

/-- How many non-cancelled holders of an idempotency key are observable via
`list` for one app. -/
def countMatching (st : Registry) (a k : String) : Nat :=
  ((Registry.list (some a) st).filter
    (fun r => r.idempotency_key == k && r.status != Status.cancelled)).length

/- ## Theorems -/

/-- C5: `clear_all()` removes every record regardless of its status and
returns the number of records removed (all records previously observable
via `list`), and a subsequent `list()` returns the empty list. -/
theorem clear_all_count_and_empty (st : Registry) :
    (Registry.clear_all st).1 = (Registry.list none st).length ∧
    (Registry.clear_all st).2.records = [] ∧
    Registry.list none (Registry.clear_all st).2 = [] :=
  ⟨rfl, rfl, rfl⟩

/-- C7: every request the weather-app client sends to the reminder
service — create and delete-all from the home page, and the GET/POST/DELETE
helpers used by the settings page for create, list, delete-one and
delete-all — carries the static shared-secret header `X-App-Key: dev-key`. -/
theorem all_requests_carry_app_key :
    (∀ b, hasAppKey (scheduleRequest b) = true) ∧
    hasAppKey cancelAllRequest = true ∧
    (∀ p q, hasAppKey (urnsGET p q) = true) ∧
    (∀ p b, hasAppKey (urnsPOST p b) = true) ∧
    (∀ p, hasAppKey (urnsDELETE p) = true) :=
  ⟨fun _ => rfl, rfl, fun _ _ => rfl, fun _ _ => rfl, fun _ => rfl⟩

/-- C8: `addFav` appends the item and returns `true` when no stored entry
has the same `name`, `lat` and `lon`; otherwise it returns `false` leaving
the stored list unchanged; hence adding the same item twice yields the same
stored list as adding it once. -/
theorem addFav_append_or_reject :
    (∀ l i, l.any (sameFav i) = false → addFav l i = (l ++ [i], true)) ∧
    (∀ l i, l.any (sameFav i) = true → addFav l i = (l, false)) ∧
    (∀ l i, (addFav (addFav l i).1 i).1 = (addFav l i).1) := by
  refine ⟨fun l i h => by simp [addFav, h], fun l i h => by simp [addFav, h], fun l i => ?_⟩
  by_cases h : l.any (sameFav i)
  · simp [addFav, h]
  · have hself : sameFav i i = true := by simp [sameFav]
    have h2 : (l ++ [i]).any (sameFav i) = true := by
      simp [List.any_append, hself]
    simp [addFav, h, h2]

/-- Concrete favorite used to witness `addFav_append_or_reject`. -/
def favLB : FavItem := { name := "Long Beach", lat := 33, lon := -118 }

/-- Witness for C8 at a concrete store and item. -/
theorem addFav_append_or_reject_witness :
    addFav [] favLB = ([favLB], true) ∧ addFav [favLB] favLB = ([favLB], false) :=
  ⟨addFav_append_or_reject.1 [] favLB rfl,
   addFav_append_or_reject.2.1 [favLB] favLB (by decide)⟩

/-- C10: both clear-all click handlers gate the bulk DELETE on explicit
user confirmation: when the dialog resolves `false`, the home handler only
clears the inline error (no HTTP request, no banner or reminder-state
change) and the settings handler does nothing at all. -/
theorem clear_all_needs_confirmation (deleteOk : Bool) :
    homeCancelAll false deleteOk = [Effect.clearErr] ∧
    (homeCancelAll false deleteOk).all (fun e => !(isRequest e || changesState e)) = true ∧
    settingsClearAll false deleteOk = [] :=
  ⟨rfl, rfl, rfl⟩

/-- C6: every reminder-creation body the client builds populates exactly
one of `when`/`cron`, matching the declared `type`: the Schedule button
body (for any well-formed `kind:value` select value), and the settings-page
one-time and every-minute bodies; for any other schedule kind the Schedule
button builds no body (sends no request and reports an error instead). -/
theorem client_bodies_exactly_one_schedule :
    (∀ sv title msg b, 2 ≤ (splitTwo ':' sv).length →
        buildScheduleBody sv title msg = some b → exactlyOneSchedule b) ∧
    (∀ sv title msg, (splitTwo ':' sv).headD "" ≠ "cron" →
        (splitTwo ':' sv).headD "" ≠ "time" →
        buildScheduleBody sv title msg = none) ∧
    (∀ iso m, exactlyOneSchedule (oneTimeBody iso m)) ∧
    exactlyOneSchedule testEveryMinuteBody := by
  refine ⟨?_, ?_, ?_, ?_⟩
  · intro sv title msg b hlen hb
    have hval : (splitTwo ':' sv)[1]?.isSome := by
      rw [Option.isSome_iff_exists]
      have h1 : 1 < (splitTwo ':' sv).length := by omega
      exact ⟨(splitTwo ':' sv)[1], by simp [List.getElem?_eq_getElem h1]⟩
    unfold buildScheduleBody at hb
    by_cases hc : (splitTwo ':' sv).headD "" == "cron"
    · rw [if_pos hc] at hb
      cases hb
      exact Or.inl ⟨rfl, hval, rfl⟩
    · rw [if_neg hc] at hb
      by_cases ht : (splitTwo ':' sv).headD "" == "time"
      · rw [if_pos ht] at hb
        cases hb
        exact Or.inr ⟨rfl, hval, rfl⟩
      · rw [if_neg ht] at hb
        exact Option.noConfusion hb
  · intro sv title msg hc ht
    unfold buildScheduleBody
    rw [if_neg (by simpa using hc), if_neg (by simpa using ht)]
  · intro iso m
    exact Or.inr ⟨rfl, rfl, rfl⟩
  · exact Or.inl ⟨rfl, rfl, rfl⟩

/-- Witness for C6: the default schedule value of the home page builds a
cron body with exactly one schedule field, and an unknown kind builds no
body at all. -/
theorem client_bodies_exactly_one_schedule_witness :
    exactlyOneSchedule
      { app_id := "weather-app", type := "cron", when := none, cron := some "0 7 * * *"
        webhook := "http://127.0.0.1:8080/hooks/reminder", title := "Daily Forecast"
        msg := "Check forecast for Long Beach" } ∧
    buildScheduleBody "daily" "t" "m" = none :=
  ⟨client_bodies_exactly_one_schedule.1 "cron:0 7 * * *" "Daily Forecast"
      "Check forecast for Long Beach" _ (by decide) rfl,
   client_bodies_exactly_one_schedule.2.1 "daily" "t" "m" (by decide) (by decide)⟩

/-- The personalized loop of `mergeSuggestions` preserves id-uniqueness,
keeps the seen set complete, and only appends entries of its input list. -/
theorem dedup_foldl_spec (p : List Sug) : ∀ (seen : List String) (merged : List Sug),
    (merged.map Sug.location_id).Nodup →
    (∀ a ∈ merged.map Sug.location_id, a ∈ seen) →
    ((p.foldl dedupStep (seen, merged)).2.map Sug.location_id).Nodup ∧
    (∀ a ∈ (p.foldl dedupStep (seen, merged)).2.map Sug.location_id,
        a ∈ (p.foldl dedupStep (seen, merged)).1) ∧
    ∃ added, (p.foldl dedupStep (seen, merged)).2 = merged ++ added ∧
      ∀ x ∈ added, x ∈ p := by
  induction p with
  | nil =>
    intro seen merged hnd hseen
    exact ⟨hnd, hseen, [], by simp, by simp⟩
  | cons item rest ih =>
    intro seen merged hnd hseen
    rw [List.foldl_cons]
    by_cases hc : item.location_id ∈ seen
    · have hstep : dedupStep (seen, merged) item = (seen, merged) := by
        simp only [dedupStep]
        rw [if_pos (by simpa using hc)]
      rw [hstep]
      obtain ⟨h1, h2, added, h3, h4⟩ := ih seen merged hnd hseen
      exact ⟨h1, h2, added, h3, fun x hx => List.mem_cons_of_mem _ (h4 x hx)⟩
    · have hstep : dedupStep (seen, merged) item =
          (item.location_id :: seen, merged ++ [item]) := by
        simp only [dedupStep]
        rw [if_neg (by simpa using hc)]
      rw [hstep]
      have hnotin : item.location_id ∉ merged.map Sug.location_id := by
        intro hmem
        exact hc (hseen _ hmem)
      have hnd' : ((merged ++ [item]).map Sug.location_id).Nodup := by
        rw [List.map_append]
        simp [List.nodup_append, hnd, hnotin]
      have hseen' : ∀ a ∈ (merged ++ [item]).map Sug.location_id,
          a ∈ item.location_id :: seen := by
        intro a ha
        rw [List.map_append, List.mem_append] at ha
        rcases ha with ha | ha
        · exact List.mem_cons_of_mem _ (hseen a ha)
        · simp at ha
          simp [ha]
      obtain ⟨h1, h2, added, h3, h4⟩ := ih _ _ hnd' hseen'
      refine ⟨h1, h2, item :: added, ?_, ?_⟩
      · rw [h3]
        simp
      · intro x hx
        rcases List.mem_cons.mp hx with hx | hx
        · exact hx ▸ List.mem_cons_self _ _
        · exact List.mem_cons_of_mem _ (h4 x hx)

/-- The geocoding loop of `mergeSuggestions` preserves id-uniqueness and
only appends entries of its input list. -/
theorem addGeo_spec (g : List Sug) : ∀ (seen : List String) (merged : List Sug) (limit : Nat),
    (merged.map Sug.location_id).Nodup →
    (∀ a ∈ merged.map Sug.location_id, a ∈ seen) →
    ((addGeo seen merged limit g).map Sug.location_id).Nodup ∧
    ∃ added, addGeo seen merged limit g = merged ++ added ∧ ∀ x ∈ added, x ∈ g := by
  induction g with
  | nil =>
    intro seen merged limit hnd hseen
    exact ⟨hnd, [], by simp [addGeo], by simp⟩
  | cons item rest ih =>
    intro seen merged limit hnd hseen
    rw [addGeo]
    by_cases hfull : limit ≤ merged.length
    · rw [if_pos hfull]
      exact ⟨hnd, [], by simp, by simp⟩
    · rw [if_neg hfull]
      by_cases hc : item.location_id ∈ seen
      · rw [if_pos (by simpa using hc)]
        obtain ⟨h1, added, h3, h4⟩ := ih seen merged limit hnd hseen
        exact ⟨h1, added, h3, fun x hx => List.mem_cons_of_mem _ (h4 x hx)⟩
      · rw [if_neg (by simpa using hc)]
        have hnotin : item.location_id ∉ merged.map Sug.location_id := by
          intro hmem
          exact hc (hseen _ hmem)
        have hnd' : ((merged ++ [item]).map Sug.location_id).Nodup := by
          rw [List.map_append]
          simp [List.nodup_append, hnd, hnotin]
        have hseen' : ∀ a ∈ (merged ++ [item]).map Sug.location_id,
            a ∈ item.location_id :: seen := by
          intro a ha
          rw [List.map_append, List.mem_append] at ha
          rcases ha with ha | ha
          · exact List.mem_cons_of_mem _ (hseen a ha)
          · simp at ha
            simp [ha]
        obtain ⟨h1, added, h3, h4⟩ := ih _ _ limit hnd' hseen'
        refine ⟨h1, item :: added, ?_, ?_⟩
        · rw [h3]
          simp
        · intro x hx
          rcases List.mem_cons.mp hx with hx | hx
          · exact hx ▸ List.mem_cons_self _ _
          · exact List.mem_cons_of_mem _ (h4 x hx)

/-- C9: `mergeSuggestions` returns at most `limit` entries, no two of them
share a `location_id`, and the result is a prefix-truncation of a list of
entries from `personalized` followed by entries from `geocoding`. -/
theorem mergeSuggestions_bounded_unique_ordered (p g : List Sug) (limit : Nat) :
    (mergeSuggestions p g limit).length ≤ limit ∧
    ((mergeSuggestions p g limit).map Sug.location_id).Nodup ∧
    ∃ ps gs, mergeSuggestions p g limit = List.take limit (ps ++ gs) ∧
      (∀ x ∈ ps, x ∈ p) ∧ (∀ x ∈ gs, x ∈ g) := by
  obtain ⟨hnd1, hseen1, addedP, hP, hPmem⟩ :=
    dedup_foldl_spec p [] [] (by simp) (by simp)
  obtain ⟨hnd2, addedG, hG, hGmem⟩ :=
    addGeo_spec g (p.foldl dedupStep ([], [])).1 (p.foldl dedupStep ([], [])).2 limit hnd1 hseen1
  have hmerge : mergeSuggestions p g limit =
      List.take limit ((p.foldl dedupStep ([], [])).2 ++ addedG) := by
    rw [mergeSuggestions]
    rw [hG]
  refine ⟨List.length_take_le _ _, ?_, ?_⟩
  · rw [mergeSuggestions]
    have hsub : ((addGeo (p.foldl dedupStep ([], [])).1 (p.foldl dedupStep ([], [])).2
        limit g).take limit).Sublist
        (addGeo (p.foldl dedupStep ([], [])).1 (p.foldl dedupStep ([], [])).2 limit g) :=
      List.take_sublist _ _
    exact List.Nodup.sublist (List.Sublist.map _ hsub) hnd2
  · refine ⟨(p.foldl dedupStep ([], [])).2, addedG, hmerge, ?_, hGmem⟩
    intro x hx
    rw [hP] at hx
    simp at hx
    exact hPmem x hx

/-- `cancel` rewrites the looked-up record in place: `get` after `cancel`
returns the cancelled copy of the record `get` returned before. -/
theorem get_cancel (st : Registry) (id : Nat) :
    (Registry.cancel st id).get id =
      (st.get id).map (fun r => { r with status := Status.cancelled, next_run_time := none }) := by
  rcases st with ⟨n, records⟩
  simp only [Registry.get, Registry.cancel]
  induction records with
  | nil => rfl
  | cons r rest ih =>
    rw [List.map_cons]
    by_cases h : (r.id == id) = true
    · rw [if_pos h]
      have h2 : (({ r with status := Status.cancelled, next_run_time := none } : Reminder).id
          == id) = true := h
      rw [List.find?_cons_of_pos (p := fun (x : Reminder) => x.id == id) _ h2]
      rw [List.find?_cons_of_pos (p := fun (x : Reminder) => x.id == id) _ h]
      rfl
    · rw [if_neg h]
      rw [List.find?_cons_of_neg (p := fun (x : Reminder) => x.id == id) _ h,
        List.find?_cons_of_neg (p := fun (x : Reminder) => x.id == id) _ h]
      exact ih

/-- C4: cancelled is terminal under delivery reports: cancelling a stored
reminder and then reporting any in-flight delivery outcome leaves the
status `cancelled`, because `report_result` is a no-op whenever the record
is already cancelled or removed. -/
theorem cancelled_is_terminal (st : Registry) (id now : Nat) (o : Outcome)
    (hpresent : (Registry.get st id).isSome = true) :
    statusOf (Registry.report_result now (Registry.cancel st id) id o) id =
      some Status.cancelled ∧
    (∀ st' : Registry, statusOf st' id = some Status.cancelled →
      Registry.report_result now st' id o = st') ∧
    (∀ st' : Registry, Registry.get st' id = none →
      Registry.report_result now st' id o = st') := by
  have hnoopCancelled : ∀ st' : Registry, statusOf st' id = some Status.cancelled →
      Registry.report_result now st' id o = st' := by
    intro st' hs
    rw [statusOf] at hs
    rcases hget : st'.get id with _ | r
    · simp [Registry.report_result, hget]
    · rw [hget] at hs
      simp at hs
      simp [Registry.report_result, hget, hs]
  have hnoopGone : ∀ st' : Registry, Registry.get st' id = none →
      Registry.report_result now st' id o = st' := by
    intro st' hg
    simp [Registry.report_result, hg]
  refine ⟨?_, hnoopCancelled, hnoopGone⟩
  obtain ⟨r, hr⟩ := Option.isSome_iff_exists.mp hpresent
  have hcg : (Registry.cancel st id).get id =
      some { r with status := Status.cancelled, next_run_time := none } := by
    rw [get_cancel, hr]
    rfl
  have hcs : statusOf (Registry.cancel st id) id = some Status.cancelled := by
    rw [statusOf, hcg]
    rfl
  rw [hnoopCancelled _ hcs]
  exact hcs

/-- Concrete scheduled reminder used to witness `cancelled_is_terminal`. -/
def remW : Reminder :=
  { id := 0, app_id := "weather-app", kind := Kind.time, whenAt := 100
    cron_expr := default, webhook_url := "http://127.0.0.1:8080/hooks/reminder"
    payload := "{}", idempotency_key := "", status := Status.scheduled
    attempts := 0, last_error := "", next_run_time := some 100, created_at := 0 }

/-- Witness for C4: cancelling the stored reminder and then reporting a
successful delivery leaves it cancelled. -/
theorem cancelled_is_terminal_witness :
    statusOf (Registry.report_result 100 (Registry.cancel ⟨1, [remW]⟩ 0) 0 Outcome.success) 0 =
      some Status.cancelled :=
  (cancelled_is_terminal ⟨1, [remW]⟩ 0 100 Outcome.success (by decide)).1

/-- C3: a `time` reminder whose `when` is not strictly in the future fails
creation with `InvalidSchedule` (no record is created, since the error
leaves the registry untouched), and `next_fire` for kind `time` returns an
instant iff it is `when`, `when > after`, and the reminder has not fired. -/
theorem create_past_time_invalid :
    (∀ (now : Nat) (st : Registry) (s : SpecIn) (w : Nat),
      s.kind = Kind.time → s.whenAt = some w → w ≤ now →
      isWellFormedUrl s.webhook_url = true →
      (s.idempotency_key = "" ∨ findActive st s.app_id s.idempotency_key = none) →
      Registry.create now st s = Except.error CreateError.invalidSchedule) ∧
    (∀ (w : Nat) (e : Cron) (fired : Bool) (after t : Nat),
      next_fire Kind.time w e fired after = some t ↔
        (t = w ∧ after < w ∧ fired = false)) := by
  constructor
  · intro now st s w hk hw hle hurl hid
    have hsched : hasScheduleField s = true := by
      rw [hasScheduleField, hk, hw]
      rfl
    have hscrut : (if s.idempotency_key != "" then
        findActive st s.app_id s.idempotency_key else none) = none := by
      rcases hid with hid | hid
      · rw [if_neg (by simp [hid])]
      · split
        · exact hid
        · rfl
    have hnf : next_fire s.kind (s.whenAt.getD 0) (s.cron_expr.getD default) false now
        = none := by
      rw [hk, hw]
      show next_fire Kind.time w _ false now = none
      rw [next_fire]
      simp
      omega
    rw [Registry.create, hsched, hurl]
    simp only [Bool.not_true, Bool.false_eq_true, if_false]
    rw [hscrut]
    rw [hnf]
  · intro w e fired after t
    rw [next_fire]
    rcases fired with _ | _
    · constructor
      · intro h
        by_cases hlt : after < w
        · rw [if_neg (by simp), if_pos hlt] at h
          cases h
          exact ⟨rfl, hlt, rfl⟩
        · rw [if_neg (by simp), if_neg hlt] at h
          exact Option.noConfusion h
      · rintro ⟨rfl, hlt, _⟩
        rw [if_neg (by simp), if_pos hlt]
    · constructor
      · intro h
        rw [if_pos rfl] at h
        exact Option.noConfusion h
      · rintro ⟨_, _, h⟩
        exact Bool.noConfusion h

/-- Concrete creation request with a past `when`, used to witness
`create_past_time_invalid`. -/
def specPast : SpecIn :=
  { app_id := "weather-app", kind := Kind.time, whenAt := some 3, cron_expr := none
    webhook_url := "http://127.0.0.1:8080/hooks/reminder", payload := "{}"
    idempotency_key := "" }

/-- Witness for C3: creating a `time` reminder at `now = 5` with `when = 3`
fails with `InvalidSchedule`. -/
theorem create_past_time_invalid_witness :
    Registry.create 5 Registry.empty specPast = Except.error CreateError.invalidSchedule :=
  create_past_time_invalid.1 5 Registry.empty specPast 3 rfl rfl (by decide) (by decide)
    (Or.inl rfl)

/-- When a predicate finds nothing in the first list, `find?` over an
append searches the second list. -/
theorem find?_append_left_none {α : Type} (p : α → Bool) (l₁ l₂ : List α)
    (h : l₁.find? p = none) : (l₁ ++ l₂).find? p = l₂.find? p := by
  rw [List.find?_append, h]
  rfl

/-- A zero `countMatching` means the idempotency lookup finds nothing. -/
theorem countMatching_zero_findActive (st : Registry) (a k : String)
    (h : countMatching st a k = 0) : findActive st a k = none := by
  rw [countMatching, Registry.list, List.filter_filter] at h
  rw [List.length_eq_zero] at h
  rw [findActive, List.find?_eq_none]
  intro x hx hpx
  apply List.filter_eq_nil_iff.mp h x hx
  simp only [Bool.and_eq_true] at hpx ⊢
  tauto

/-- Existing-record branch of `create`: with valid fields, a non-empty key
and a hit in the idempotency lookup, `create` returns the existing id and
leaves the registry unchanged. -/
theorem create_hit (now : Nat) (st : Registry) (s : SpecIn) (r : Reminder)
    (h1 : hasScheduleField s = true) (h2 : isWellFormedUrl s.webhook_url = true)
    (hk : s.idempotency_key ≠ "")
    (hf : findActive st s.app_id s.idempotency_key = some r) :
    Registry.create now st s = Except.ok (r.id, st) := by
  rw [Registry.create, h1, h2]
  simp only [Bool.not_true, Bool.false_eq_true, if_false]
  rw [if_pos (by simpa [bne_iff_ne] using hk)]
  rw [hf]

/-- C2: with a non-empty idempotency key not yet present for the app,
calling `create` twice with the same request returns the same id both
times, the second call leaves the registry exactly as the first call left
it (no new record), and exactly one matching record is observable via
`list`. -/
theorem create_idempotent (now now2 : Nat) (st : Registry) (s : SpecIn)
    (id1 id2 : Nat) (st1 st2 : Registry)
    (hk : s.idempotency_key ≠ "")
    (h0 : countMatching st s.app_id s.idempotency_key = 0)
    (h1 : Registry.create now st s = Except.ok (id1, st1))
    (h2 : Registry.create now2 st1 s = Except.ok (id2, st2)) :
    id2 = id1 ∧ st2 = st1 ∧
    countMatching st2 s.app_id s.idempotency_key = 1 ∧
    st2.records.length = st1.records.length := by
  have hfind : findActive st s.app_id s.idempotency_key = none :=
    countMatching_zero_findActive st s.app_id s.idempotency_key h0
  -- invert the first call: it must have taken the fresh branch
  rw [Registry.create] at h1
  by_cases hsf : hasScheduleField s = true
  case neg =>
    rw [Bool.not_eq_true] at hsf
    rw [hsf] at h1
    exact absurd h1 (by simp)
  rw [hsf] at h1
  by_cases hurl : isWellFormedUrl s.webhook_url = true
  case neg =>
    rw [Bool.not_eq_true] at hurl
    rw [hurl] at h1
    exact absurd h1 (by simp)
  rw [hurl] at h1
  simp only [Bool.not_true, Bool.false_eq_true, if_false] at h1
  rw [if_pos (by simpa [bne_iff_ne] using hk), hfind] at h1
  rcases hnf : next_fire s.kind (s.whenAt.getD 0) (s.cron_expr.getD default) false now
    with _ | nr
  · rw [hnf] at h1
    exact absurd h1 (by simp)
  rw [hnf] at h1
  simp only [Except.ok.injEq, Prod.mk.injEq] at h1
  obtain ⟨hid1, hst1⟩ := h1
  -- the record the first call appended
  set r0 : Reminder :=
    { id := st.nextId, app_id := s.app_id, kind := s.kind
      whenAt := s.whenAt.getD 0, cron_expr := s.cron_expr.getD default
      webhook_url := s.webhook_url, payload := s.payload
      idempotency_key := s.idempotency_key, status := Status.scheduled
      attempts := 0, last_error := "", next_run_time := some nr, created_at := now } with hr0
  have hpred : (fun x : Reminder => x.app_id == s.app_id &&
      x.idempotency_key == s.idempotency_key && x.status != Status.cancelled) r0 = true := by
    simp [hr0]
  have hfindL : st.records.find? (fun r : Reminder => r.app_id == s.app_id &&
      r.idempotency_key == s.idempotency_key && r.status != Status.cancelled) = none := hfind
  have hfind1 : findActive st1 s.app_id s.idempotency_key = some r0 := by
    rw [← hst1, findActive]
    show List.find? _ (st.records ++ [r0]) = some r0
    rw [find?_append_left_none _ _ _ hfindL]
    exact List.find?_cons_of_pos _ hpred
  have h2ok : Registry.create now2 st1 s = Except.ok (r0.id, st1) :=
    create_hit now2 st1 s r0 hsf hurl hk hfind1
  rw [h2ok] at h2
  simp only [Except.ok.injEq, Prod.mk.injEq] at h2
  obtain ⟨hid2, hst2⟩ := h2
  have hzero : (st.records.filter (fun x : Reminder =>
      (x.idempotency_key == s.idempotency_key && x.status != Status.cancelled)
      && x.app_id == s.app_id)).length = 0 := by
    rw [countMatching, Registry.list, List.filter_filter] at h0
    exact h0
  have hcount : countMatching st1 s.app_id s.idempotency_key = 1 := by
    rw [← hst1, countMatching]
    show ((List.filter _ (st.records ++ [r0])).filter _).length = 1
    rw [List.filter_filter, List.filter_append, List.length_append, hzero]
    simp [hr0]
  refine ⟨by rw [← hid2, ← hid1], hst2.symm, ?_, by rw [← hst2]⟩
  rw [← hst2]
  exact hcount

/-- Concrete creation request with idempotency key, used to witness
`create_idempotent`. -/
def specW : SpecIn :=
  { app_id := "weather-app", kind := Kind.time, whenAt := some 10, cron_expr := none
    webhook_url := "http://127.0.0.1:8080/hooks/reminder", payload := "{}"
    idempotency_key := "key-1" }

/-- The registry state after the first `create` of `specW` on the empty
registry. -/
def stW1 : Registry :=
  ⟨1, [{ id := 0, app_id := "weather-app", kind := Kind.time, whenAt := 10
         cron_expr := default, webhook_url := "http://127.0.0.1:8080/hooks/reminder"
         payload := "{}", idempotency_key := "key-1", status := Status.scheduled
         attempts := 0, last_error := "", next_run_time := some 10, created_at := 0 }]⟩

/-- Witness for C2: creating `specW` twice from the empty registry returns
id 0 both times and leaves a single matching record. -/
theorem create_idempotent_witness :
    (0 : Nat) = 0 ∧ stW1 = stW1 ∧
    countMatching stW1 "weather-app" "key-1" = 1 ∧
    stW1.records.length = stW1.records.length :=
  create_idempotent 0 1 Registry.empty specW 0 0 stW1 stW1 (by decide) (by decide)
    rfl rfl

/-- The bounded search returns the first matching instant strictly after
its start: the result is later than the start, matches, and nothing
strictly between matches. -/
theorem searchFire_least (e : Cron) : ∀ (fuel t r : Nat),
    searchFire e fuel t = some r →
    t < r ∧ cronMatches e r = true ∧
    ∀ s, t < s → s < r → cronMatches e s = false := by
  intro fuel
  induction fuel with
  | zero =>
    intro t r h
    exact Option.noConfusion h
  | succ fuel ih =>
    intro t r h
    rw [searchFire] at h
    by_cases hm : cronMatches e (t + 1) = true
    · rw [if_pos hm] at h
      cases h
      exact ⟨Nat.lt_succ_self t, hm, fun s hs1 hs2 => absurd hs2 (by omega)⟩
    · rw [if_neg hm] at h
      obtain ⟨h1, h2, h3⟩ := ih (t + 1) r h
      refine ⟨Nat.lt_of_succ_lt h1, h2, fun s hs1 hs2 => ?_⟩
      by_cases hseq : s = t + 1
      · rw [hseq]
        exact Bool.not_eq_true _ ▸ (by simpa using hm)
      · exact h3 s (Nat.lt_of_le_of_ne (Nat.succ_le_of_lt hs1) (Ne.symm hseq)) hs2

/-- C1: for every cron expression, a returned fire instant is strictly
later than `after`, satisfies all five fields (with the day-of-month /
day-of-week OR-combination), and is the earliest such instant; hence
feeding a result back in as `after` always yields a strictly later
instant — iteration never returns an earlier one. -/
theorem next_fire_cron_earliest_monotone (e : Cron) (w : Nat) (fired : Bool)
    (after t : Nat) (h : next_fire Kind.cron w e fired after = some t) :
    (after < t ∧ cronMatches e t = true ∧
      ∀ s, after < s → s < t → cronMatches e s = false) ∧
    (∀ t2, next_fire Kind.cron w e fired t = some t2 → t < t2) := by
  rw [next_fire] at h
  refine ⟨searchFire_least e searchHorizon after t h, ?_⟩
  intro t2 h2
  rw [next_fire] at h2
  exact (searchFire_least e searchHorizon t t2 h2).1

/-- The every-minute cron expression scheduled by the settings page. -/
def cronEveryMinute : Cron :=
  { minute := CronField.step 1, hour := CronField.star, dom := CronField.star
    month := CronField.star, dow := CronField.star }

/-- Witness for C1: the every-minute expression fires first at minute 1
after instant 0, and iterating from there yields strictly later instants. -/
theorem next_fire_cron_earliest_monotone_witness :
    ((0 : Nat) < 1 ∧ cronMatches cronEveryMinute 1 = true ∧
      ∀ s, 0 < s → s < 1 → cronMatches cronEveryMinute s = false) ∧
    (∀ t2, next_fire Kind.cron 0 cronEveryMinute false 1 = some t2 → 1 < t2) :=
  next_fire_cron_earliest_monotone cronEveryMinute 0 false 0 1 rfl
